import Mathlib

/-!
Shallow embedding of the MPU6050 visualiser scripts
(`Python_Codes/Pitch.py`, `Python_Codes/Roll_Pitch.py`,
`Python_Codes/Roll_Pitch_Yaw.py`): the per-channel ring buffers
(`collections.deque` with `maxlen=WINDOW`), the serial-line parsers, the
per-tick driver-loop state updates, and the rotation/pose geometry, together
with theorems settling the specification claims about them.
-/

namespace MPU6050

/-- Window size shared by all three scripts (`WINDOW = 200`). -/
def WINDOW : ℕ := 200

/-- One `deque.append` step for a deque constructed with `maxlen = W`
(the buffers `pitch_buf`, `roll_buf`, `yaw_buf`, `x_idx`): the new element is
appended on the right and only the rightmost `W` elements are kept, so when
the buffer already holds `W` elements the oldest (leftmost) one is evicted. -/
def push (W : ℕ) (l : List α) (x : α) : List α :=
  (l ++ [x]).drop (l.length + 1 - W)

/-- Pushing a whole list of values, oldest first. -/
def pushAll (W : ℕ) (l : List α) (xs : List α) : List α :=
  xs.foldl (push W) l

theorem push_length (W : ℕ) (l : List α) (x : α) :
    (push W l x).length = min (l.length + 1) W := by
  simp only [push, List.length_drop, List.length_append, List.length_singleton]
  omega

theorem pushAll_eq_drop (W : ℕ) (xs : List α) :
    ∀ l : List α, l.length ≤ W →
      pushAll W l xs = (l ++ xs).drop ((l ++ xs).length - W) := by
  induction xs with
  | nil =>
    intro l h
    have h0 : l.length - W = 0 := by omega
    simp [pushAll, h0]
  | cons x xs ih =>
    intro l h
    have hlen : (push W l x).length = min (l.length + 1) W := push_length W l x
    have h' : (push W l x).length ≤ W := by omega
    have hd : l.length + 1 - W ≤ (l ++ [x]).length := by
      simp only [List.length_append, List.length_singleton]
      omega
    have step : pushAll W l (x :: xs) = pushAll W (push W l x) xs := rfl
    have hidx : (push W l x ++ xs).length - W = min (l.length + 1) W + xs.length - W := by
      simp [hlen]
    have e1 : push W l x ++ xs = ((l ++ [x]) ++ xs).drop (l.length + 1 - W) :=
      (List.drop_append_of_le_length hd).symm
    have e2 : (l ++ [x]) ++ xs = l ++ x :: xs := by simp
    rw [step, ih (push W l x) h', hidx, e1, List.drop_drop, e2]
    congr 1
    have hl1 : (l ++ x :: xs).length = l.length + (xs.length + 1) := by simp
    omega

theorem pushAll_nil_eq_drop (W : ℕ) (xs : List α) :
    pushAll W ([] : List α) xs = xs.drop (xs.length - W) := by
  have h := pushAll_eq_drop W xs [] (by simp)
  simpa using h

/-- Python's `str.strip()`: remove whitespace from both ends of the line. -/
def pstrip (l : List Char) : List Char :=
  ((l.dropWhile Char.isWhitespace).reverse.dropWhile Char.isWhitespace).reverse

/-- Python's `str.split(sep)` for a one-character separator: consecutive
separators yield empty fields and the empty string yields one empty field. -/
def splitOn (sep : Char) : List Char → List (List Char)
  | [] => [[]]
  | c :: rest =>
    match splitOn sep rest with
    | f :: fs => if c = sep then [] :: f :: fs else (c :: f) :: fs
    | [] => [[c]]

/-- The field list every script computes as `line.strip().split(",")`. -/
def fields (line : List Char) : List (List Char) :=
  splitOn ',' (pstrip line)

/-- Value of a digit string, most significant digit first. -/
def digitsVal (l : List Char) : ℕ :=
  l.foldl (fun n c => 10 * n + (c.toNat - '0'.toNat)) 0

/-- Models Python's built-in `float()` (the only numeric conversion the
scripts call), restricted to optionally signed plain decimal literals —
the format the Arduino stream produces.  Exponents, `inf`/`nan`, underscores
and surrounding whitespace are not modelled; the parser theorems below are
parametric in the field parser, and this concrete one is used for the
concrete end-to-end instances.  Values are exact rationals standing for the
decimal value the literal denotes. -/
def pfDec (s : List Char) : Option ℚ :=
  let signed : ℚ × List Char :=
    match s with
    | '-' :: r => (-1, r)
    | '+' :: r => (1, r)
    | _ => (1, s)
  match splitOn '.' signed.2 with
  | [ip] =>
    if !ip.isEmpty && ip.all Char.isDigit then
      some (signed.1 * (digitsVal ip : ℚ))
    else none
  | [ip, fp] =>
    if (!ip.isEmpty || !fp.isEmpty) && ip.all Char.isDigit && fp.all Char.isDigit then
      some (signed.1 * ((digitsVal ip : ℚ) + (digitsVal fp : ℚ) / 10 ^ fp.length))
    else none
  | _ => none

theorem pfDec_one : pfDec "1.0".toList = some 1 := by
  have h : digitsVal ['1'] = 1 := by decide
  have h0 : digitsVal ['0'] = 0 := by decide
  show some ((1 : ℚ) * ((digitsVal ['1'] : ℚ) +
      (digitsVal ['0'] : ℚ) / 10 ^ (['0'] : List Char).length)) = some 1
  rw [h, h0]
  norm_num

theorem pfDec_two : pfDec "2.0".toList = some 2 := by
  have h : digitsVal ['2'] = 2 := by decide
  have h0 : digitsVal ['0'] = 0 := by decide
  show some ((1 : ℚ) * ((digitsVal ['2'] : ℚ) +
      (digitsVal ['0'] : ℚ) / 10 ^ (['0'] : List Char).length)) = some 2
  rw [h, h0]
  norm_num

theorem pfDec_three : pfDec "3.0".toList = some 3 := by
  have h : digitsVal ['3'] = 3 := by decide
  have h0 : digitsVal ['0'] = 0 := by decide
  show some ((1 : ℚ) * ((digitsVal ['3'] : ℚ) +
      (digitsVal ['0'] : ℚ) / 10 ^ (['0'] : List Char).length)) = some 3
  rw [h, h0]
  norm_num

theorem pfDec_twenty : pfDec "20.0".toList = some 20 := by
  have h : digitsVal ['2', '0'] = 20 := by decide
  have h0 : digitsVal ['0'] = 0 := by decide
  show some ((1 : ℚ) * ((digitsVal ['2', '0'] : ℚ) +
      (digitsVal ['0'] : ℚ) / 10 ^ (['0'] : List Char).length)) = some 20
  rw [h, h0]
  norm_num

theorem pfDec_seven : pfDec "7.0".toList = some 7 := by
  have h : digitsVal ['7'] = 7 := by decide
  have h0 : digitsVal ['0'] = 0 := by decide
  show some ((1 : ℚ) * ((digitsVal ['7'] : ℚ) +
      (digitsVal ['0'] : ℚ) / 10 ^ (['0'] : List Char).length)) = some 7
  rw [h, h0]
  norm_num

end MPU6050

namespace Pitch

open MPU6050

/-- Field-level body of `Pitch.py`'s `parse_line`: `pitch = float(parts[0])`,
any further fields ignored; a `float` failure is caught by the
`try`/`except` and yields `None`.  (`parts` is never empty, but the `[]`
case mirrors the `except` catching an out-of-range index.) -/
def parse_fields (pf : List Char → Option ℚ) : List (List Char) → Option ℚ
  | p0 :: _ => pf p0
  | [] => none

/-- `parse_line` of `Pitch.py` (lines 50–57): strip, split on commas, read
the leading field as the pitch. -/
def parse_line (pf : List Char → Option ℚ) (line : List Char) : Option ℚ :=
  parse_fields pf (fields line)

end Pitch

namespace RollPitch

open MPU6050

/-- Field-level body of `Roll_Pitch.py`'s `parse_line`: requires
`len(parts) >= 2`, reads the two leading fields, ignores the rest; any
`float` failure yields `None`. -/
def parse_fields (pf : List Char → Option ℚ) : List (List Char) → Option (ℚ × ℚ)
  | a :: b :: _ =>
    match pf a, pf b with
    | some p, some r => some (p, r)
    | _, _ => none
  | _ => none

/-- `parse_line` of `Roll_Pitch.py` (lines 139–149). -/
def parse_line (pf : List Char → Option ℚ) (line : List Char) : Option (ℚ × ℚ) :=
  parse_fields pf (fields line)

end RollPitch

namespace RollPitchYaw

open MPU6050

/-- Field-level body of `Roll_Pitch_Yaw.py`'s `parse_line`: exactly 3 fields
give `(pitch, roll, yaw)`, exactly 2 fields give `(pitch, roll, 0.0)`
(fallback for the old Arduino code), any other field count gives no sample;
any `float` failure is caught by the `try`/`except` and yields no sample. -/
def parse_fields (pf : List Char → Option ℚ) : List (List Char) → Option (ℚ × ℚ × ℚ)
  | [a, b, c] =>
    match pf a, pf b, pf c with
    | some p, some r, some y => some (p, r, y)
    | _, _, _ => none
  | [a, b] =>
    match pf a, pf b with
    | some p, some r => some (p, r, 0)
    | _, _ => none
  | _ => none

/-- `parse_line` of `Roll_Pitch_Yaw.py` (lines 167–182). -/
def parse_line (pf : List Char → Option ℚ) (line : List Char) : Option (ℚ × ℚ × ℚ) :=
  parse_fields pf (fields line)

/-- The four global `deque(maxlen=WINDOW)` buffers of `Roll_Pitch_Yaw.py`
(lines 19–22). -/
structure State where
  pitch_buf : List ℚ
  roll_buf : List ℚ
  yaw_buf : List ℚ
  x_idx : List ℕ
  deriving DecidableEq, Repr

/-- Startup state: all buffers empty. -/
def init : State := ⟨[], [], [], []⟩

/-- The index value `update` appends to `x_idx`:
`len(x_idx) + 1 if x_idx else 1` (line 207), computed from the buffer as it
is before this sample's append. -/
def nextIdxValue (s : State) : ℕ :=
  if s.x_idx = [] then 1 else s.x_idx.length + 1

/-- One iteration of the per-line loop in `update` (lines 200–207): parse the
line; on failure `continue` (state unchanged); on success append pitch, roll
and yaw to their buffers and the auto-index value to `x_idx`. -/
def processLine (W : ℕ) (pf : List Char → Option ℚ) (s : State) (line : List Char) :
    State :=
  match parse_line pf line with
  | none => s
  | some (p, r, y) =>
    { pitch_buf := push W s.pitch_buf p
      roll_buf := push W s.roll_buf r
      yaw_buf := push W s.yaw_buf y
      x_idx := push W s.x_idx (nextIdxValue s) }

/-- Driver state after processing a sequence of raw lines from startup.
A tick processes its batch line by line, so the state after any sequence of
ticks is the left fold of `processLine` over the concatenation of the
batches. -/
def runLines (W : ℕ) (pf : List Char → Option ℚ) (lines : List (List Char)) :
    State :=
  lines.foldl (processLine W pf) init

/-- A concrete well-formed serial line; every one of its fields parses. -/
def goodLine : List Char := "1.0,2.0,3.0".toList

/-- Driver state after exactly `n` accepted samples: `n` iterations of the
accepted branch of the per-line loop (fed with copies of `goodLine`; which
values the accepted lines carry does not affect `x_idx`). -/
def runGood (W : ℕ) : ℕ → State
  | 0 => init
  | n + 1 => processLine W pfDec (runGood W n) goodLine

/-- X-axis bounds computed after the batch (lines 209–216):
`xs = list(range(len(x_idx)))` then
`ax1.set_xlim(max(0, len(xs)-WINDOW), max(WINDOW, len(xs)))`; Python
integers, so the subtraction is over ℤ. -/
def xBounds (W : ℕ) (s : State) : ℤ × ℤ :=
  let xsLen : ℤ := (List.range s.x_idx.length).length
  (max 0 (xsLen - (W : ℤ)), max (W : ℤ) xsLen)

/-- All per-channel buffers hold the same number of elements. -/
def synced (s : State) : Prop :=
  s.pitch_buf.length = s.x_idx.length ∧ s.roll_buf.length = s.x_idx.length ∧
    s.yaw_buf.length = s.x_idx.length

instance (s : State) : Decidable (synced s) := by
  unfold synced
  infer_instance

theorem parse_goodLine : parse_line pfDec goodLine = some (1, 2, 3) := by
  have hf : fields goodLine = ["1.0".toList, "2.0".toList, "3.0".toList] := by decide
  show parse_fields pfDec (fields goodLine) = some (1, 2, 3)
  rw [hf]
  show (match pfDec "1.0".toList, pfDec "2.0".toList, pfDec "3.0".toList with
    | some p, some r, some y => some (p, r, y)
    | _, _, _ => none) = some (1, 2, 3)
  rw [pfDec_one, pfDec_two, pfDec_three]

theorem runGood_x_idx_length (W n : ℕ) : (runGood W n).x_idx.length = min n W := by
  induction n with
  | zero => simp [runGood, init]
  | succ n ih =>
    have h : runGood W (n + 1) = processLine W pfDec (runGood W n) goodLine := rfl
    rw [h]
    simp only [processLine, parse_goodLine]
    simp only [push_length, ih]
    omega

theorem nextIdxValue_runGood (W n : ℕ) :
    nextIdxValue (runGood W n) = min (n + 1) (W + 1) := by
  have hlen := runGood_x_idx_length W n
  by_cases h : (runGood W n).x_idx = []
  · have h0 : min n W = 0 := by rw [← hlen, h]; rfl
    simp only [nextIdxValue, if_pos h]
    omega
  · have h0 : (runGood W n).x_idx.length ≠ 0 := by
      simpa [List.length_eq_zero] using h
    simp only [nextIdxValue, if_neg h, hlen]
    omega

theorem processLine_synced (W : ℕ) (pf : List Char → Option ℚ) (s : State)
    (line : List Char) (h : synced s) : synced (processLine W pf s line) := by
  unfold processLine
  cases hp : parse_line pf line with
  | none => exact h
  | some v =>
    obtain ⟨p, r, y⟩ := v
    obtain ⟨h1, h2, h3⟩ := h
    refine ⟨?_, ?_, ?_⟩ <;> simp [push_length, h1, h2, h3]

theorem runLines_synced (W : ℕ) (pf : List Char → Option ℚ)
    (lines : List (List Char)) : synced (runLines W pf lines) := by
  have main : ∀ (ls : List (List Char)) (s : State), synced s →
      synced (ls.foldl (processLine W pf) s) := by
    intro ls
    induction ls with
    | nil => intro s hs; exact hs
    | cons l ls ih =>
      intro s hs
      exact ih _ (processLine_synced W pf s l hs)
  exact main lines init ⟨rfl, rfl, rfl⟩

end RollPitchYaw

namespace RollPitch

open MPU6050

/-- The three global `deque(maxlen=WINDOW)` buffers of `Roll_Pitch.py`
(lines 19–21). -/
structure State where
  pitch_buf : List ℚ
  roll_buf : List ℚ
  x_idx : List ℕ
  deriving DecidableEq, Repr

/-- Startup state: all buffers empty. -/
def init : State := ⟨[], [], []⟩

/-- The index value appended to `x_idx` (line 165). -/
def nextIdxValue (s : State) : ℕ :=
  if s.x_idx = [] then 1 else s.x_idx.length + 1

/-- One iteration of the per-line loop in `Roll_Pitch.py`'s `update`
(lines 158–165). -/
def processLine (W : ℕ) (pf : List Char → Option ℚ) (s : State) (line : List Char) :
    State :=
  match parse_line pf line with
  | none => s
  | some (p, r) =>
    { pitch_buf := push W s.pitch_buf p
      roll_buf := push W s.roll_buf r
      x_idx := push W s.x_idx (nextIdxValue s) }

/-- Driver state after processing a sequence of raw lines from startup. -/
def runLines (W : ℕ) (pf : List Char → Option ℚ) (lines : List (List Char)) :
    State :=
  lines.foldl (processLine W pf) init

/-- Both data buffers hold as many elements as the index buffer. -/
def synced (s : State) : Prop :=
  s.pitch_buf.length = s.x_idx.length ∧ s.roll_buf.length = s.x_idx.length

instance (s : State) : Decidable (synced s) := by
  unfold synced
  infer_instance

theorem processLine_synced_two_axis (W : ℕ) (pf : List Char → Option ℚ) (s : State)
    (line : List Char) (h : synced s) : synced (processLine W pf s line) := by
  unfold processLine
  cases hp : parse_line pf line with
  | none => exact h
  | some v =>
    obtain ⟨p, r⟩ := v
    obtain ⟨h1, h2⟩ := h
    exact ⟨by simp [push_length, h1], by simp [push_length, h2]⟩

theorem runLines_synced_two_axis (W : ℕ) (pf : List Char → Option ℚ)
    (lines : List (List Char)) : synced (runLines W pf lines) := by
  have main : ∀ (ls : List (List Char)) (s : State), synced s →
      synced (ls.foldl (processLine W pf) s) := by
    intro ls
    induction ls with
    | nil => intro s hs; exact hs
    | cons l ls ih =>
      intro s hs
      exact ih _ (processLine_synced_two_axis W pf s l hs)
  exact main lines init ⟨rfl, rfl⟩

end RollPitch

namespace MPU6050

/-- Degrees to radians, `np.radians(deg) = deg * pi / 180`. -/
noncomputable def radians (d : ℝ) : ℝ :=
  d * (Real.pi / 180)

/-- Elementary rotation `Ry` about the pitch axis, exactly as laid out in
`Roll_Pitch_Yaw.py` lines 58–62 and `Roll_Pitch.py` lines 54–58. -/
noncomputable def Ry (t : ℝ) : Matrix (Fin 3) (Fin 3) ℝ :=
  !![Real.cos t, 0, Real.sin t;
     0, 1, 0;
     -Real.sin t, 0, Real.cos t]

/-- Elementary rotation `Rx` about the roll axis (`Roll_Pitch_Yaw.py`
lines 63–67, `Roll_Pitch.py` lines 59–63). -/
noncomputable def Rx (t : ℝ) : Matrix (Fin 3) (Fin 3) ℝ :=
  !![1, 0, 0;
     0, Real.cos t, -Real.sin t;
     0, Real.sin t, Real.cos t]

/-- Elementary rotation `Rz` about the yaw axis (`Roll_Pitch_Yaw.py`
lines 68–72). -/
noncomputable def Rz (t : ℝ) : Matrix (Fin 3) (Fin 3) ℝ :=
  !![Real.cos t, -Real.sin t, 0;
     Real.sin t, Real.cos t, 0;
     0, 0, 1]

/-- Tabletop width, depth and thickness: `tw, td, th = 3.0, 2.0, 0.15`. -/
noncomputable def tw : ℝ := 3.0

/-- Tabletop depth. -/
noncomputable def td : ℝ := 2.0

/-- Tabletop thickness. -/
noncomputable def th : ℝ := 0.15

/-- Leg cross-section width: `leg_w = 0.15`. -/
noncomputable def leg_w : ℝ := 0.15

/-- Leg height: `leg_h = 1.2`. -/
noncomputable def leg_h : ℝ := 1.2

/-- Leg inset from the tabletop corners: `leg_inset = 0.3`. -/
noncomputable def leg_inset : ℝ := 0.3

/-- The eight tabletop rest-pose vertices (both scripts declare the
identical `tabletop` array). -/
noncomputable def tabletopBase : List (Fin 3 → ℝ) :=
  [![-(tw/2), -(td/2), 0], ![tw/2, -(td/2), 0], ![tw/2, td/2, 0], ![-(tw/2), td/2, 0],
   ![-(tw/2), -(td/2), th], ![tw/2, -(td/2), th], ![tw/2, td/2, th], ![-(tw/2), td/2, th]]

/-- The four leg anchor positions (`leg_positions` in both scripts). -/
noncomputable def leg_positions : List (ℝ × ℝ) :=
  [(-(tw/2) + leg_inset, -(td/2) + leg_inset),
   (tw/2 - leg_inset, -(td/2) + leg_inset),
   (tw/2 - leg_inset, td/2 - leg_inset),
   (-(tw/2) + leg_inset, td/2 - leg_inset)]

/-- The eight rest-pose vertices of one leg anchored at `(lx, ly)` (the
`leg` array built inside the loop in both scripts). -/
noncomputable def legBase (lx ly : ℝ) : List (Fin 3 → ℝ) :=
  [![lx - leg_w/2, ly - leg_w/2, -leg_h], ![lx + leg_w/2, ly - leg_w/2, -leg_h],
   ![lx + leg_w/2, ly + leg_w/2, -leg_h], ![lx - leg_w/2, ly + leg_w/2, -leg_h],
   ![lx - leg_w/2, ly - leg_w/2, 0], ![lx + leg_w/2, ly - leg_w/2, 0],
   ![lx + leg_w/2, ly + leg_w/2, 0], ![lx - leg_w/2, ly + leg_w/2, 0]]

/-- Rest-pose vertex lists of the four legs (the `legs` list in both
scripts). -/
noncomputable def legsBase : List (List (Fin 3 → ℝ)) :=
  leg_positions.map fun q => legBase q.1 q.2

open Matrix in
/-- Row-vector rotation `v @ R.T` (numpy's `tabletop @ R.T`). -/
noncomputable def rowApply (R : Matrix (Fin 3) (Fin 3) ℝ) (v : Fin 3 → ℝ) :
    Fin 3 → ℝ :=
  Matrix.vecMul v Rᵀ

/-- The fixed lift: `vertices[:, 2] += 1.5` applied to one vertex. -/
noncomputable def liftZ (v : Fin 3 → ℝ) : Fin 3 → ℝ :=
  ![v 0, v 1, v 2 + 1.5]

/-- The six quadrilateral faces of one cuboid given its eight vertices, in
the order bottom, top, front, back, left, right (shared by
`create_table_faces` of both scripts for the tabletop and for each leg). -/
noncomputable def cuboidFaces (vs : List (Fin 3 → ℝ)) : List (List (Fin 3 → ℝ)) :=
  let g := fun i => vs.getD i 0
  [[g 0, g 1, g 2, g 3], [g 4, g 5, g 6, g 7], [g 0, g 1, g 5, g 4],
   [g 2, g 3, g 7, g 6], [g 0, g 3, g 7, g 4], [g 1, g 2, g 6, g 5]]

end MPU6050

namespace RollPitchYaw

open MPU6050

/-- Combined rotation of `Roll_Pitch_Yaw.py` line 75:
`R = Rz @ Rx @ Ry` (pitch applied first, then roll, then yaw), with the
angles converted to radians. -/
noncomputable def Rmat (pitch_deg roll_deg yaw_deg : ℝ) : Matrix (Fin 3) (Fin 3) ℝ :=
  Rz (radians yaw_deg) * Rx (radians roll_deg) * Ry (radians pitch_deg)

/-- `create_table_vertices` of `Roll_Pitch_Yaw.py` (lines 51–113): rotate
every tabletop and leg rest-pose vertex by `v @ R.T` and lift the result by
1.5 along z. -/
noncomputable def create_table_vertices (pitch_deg roll_deg yaw_deg : ℝ) :
    List (Fin 3 → ℝ) × List (List (Fin 3 → ℝ)) :=
  let R := Rmat pitch_deg roll_deg yaw_deg
  (tabletopBase.map fun v => liftZ (rowApply R v),
   legsBase.map fun leg => leg.map fun v => liftZ (rowApply R v))

/-- `create_table_faces` of `Roll_Pitch_Yaw.py` (lines 115–133): six faces
for the tabletop followed by six faces for each leg in order. -/
noncomputable def create_table_faces (tabletop : List (Fin 3 → ℝ))
    (legs : List (List (Fin 3 → ℝ))) : List (List (Fin 3 → ℝ)) :=
  cuboidFaces tabletop ++ (legs.map cuboidFaces).flatten

end RollPitchYaw

namespace RollPitch

open MPU6050

/-- Combined rotation of `Roll_Pitch.py` line 65: `R = Rx @ Ry`
(pitch applied first, then roll; no yaw factor). -/
noncomputable def Rmat (pitch_deg roll_deg : ℝ) : Matrix (Fin 3) (Fin 3) ℝ :=
  Rx (radians roll_deg) * Ry (radians pitch_deg)

/-- `create_table_vertices` of `Roll_Pitch.py` (lines 48–103). -/
noncomputable def create_table_vertices (pitch_deg roll_deg : ℝ) :
    List (Fin 3 → ℝ) × List (List (Fin 3 → ℝ)) :=
  let R := Rmat pitch_deg roll_deg
  (tabletopBase.map fun v => liftZ (rowApply R v),
   legsBase.map fun leg => leg.map fun v => liftZ (rowApply R v))

end RollPitch

namespace MPU6050

open Matrix in
/-- PoseComposer exactly as the specification words it: build `Ry(pitch)`,
`Rx(roll)`, `Rz(yaw)` from the angles converted to radians, compose them in
the fixed order `R = Rz · Rx · Ry`, map a base vertex `v` to `v · Rᵀ`
(row-vector convention) and translate by the fixed lift offset along the
vertical axis.  Stated separately from the code embedding so the two can be
compared. -/
noncomputable def poseComposerSpec (pitch_deg roll_deg yaw_deg : ℝ)
    (v : Fin 3 → ℝ) : Fin 3 → ℝ :=
  liftZ (Matrix.vecMul v
    (Rz (radians yaw_deg) * Rx (radians roll_deg) * Ry (radians pitch_deg))ᵀ)

end MPU6050

namespace MPU6050

open Matrix

theorem Ry_transpose (t : ℝ) :
    (Ry t)ᵀ = !![Real.cos t, 0, -Real.sin t; 0, 1, 0; Real.sin t, 0, Real.cos t] := by
  ext i j
  fin_cases i <;> fin_cases j <;> rfl

theorem Rx_transpose (t : ℝ) :
    (Rx t)ᵀ = !![1, 0, 0; 0, Real.cos t, Real.sin t; 0, -Real.sin t, Real.cos t] := by
  ext i j
  fin_cases i <;> fin_cases j <;> rfl

theorem Rz_transpose (t : ℝ) :
    (Rz t)ᵀ = !![Real.cos t, Real.sin t, 0; -Real.sin t, Real.cos t, 0; 0, 0, 1] := by
  ext i j
  fin_cases i <;> fin_cases j <;> rfl

theorem Ry_orth (t : ℝ) : (Ry t)ᵀ * Ry t = 1 := by
  rw [Ry_transpose, Ry, Matrix.mul_fin_three, Matrix.one_fin_three]
  ext i j
  fin_cases i <;> fin_cases j <;> simp [Matrix.vecHead, Matrix.vecTail] <;>
    linarith [Real.sin_sq_add_cos_sq t]

theorem Rx_orth (t : ℝ) : (Rx t)ᵀ * Rx t = 1 := by
  rw [Rx_transpose, Rx, Matrix.mul_fin_three, Matrix.one_fin_three]
  ext i j
  fin_cases i <;> fin_cases j <;> simp [Matrix.vecHead, Matrix.vecTail] <;>
    linarith [Real.sin_sq_add_cos_sq t]

theorem Rz_orth (t : ℝ) : (Rz t)ᵀ * Rz t = 1 := by
  rw [Rz_transpose, Rz, Matrix.mul_fin_three, Matrix.one_fin_three]
  ext i j
  fin_cases i <;> fin_cases j <;> simp [Matrix.vecHead, Matrix.vecTail] <;>
    linarith [Real.sin_sq_add_cos_sq t]

theorem Ry_det (t : ℝ) : (Ry t).det = 1 := by
  rw [Ry, Matrix.det_fin_three]
  simp
  linarith [Real.sin_sq_add_cos_sq t]

theorem Rx_det (t : ℝ) : (Rx t).det = 1 := by
  rw [Rx, Matrix.det_fin_three]
  simp
  linarith [Real.sin_sq_add_cos_sq t]

theorem Rz_det (t : ℝ) : (Rz t).det = 1 := by
  rw [Rz, Matrix.det_fin_three]
  simp
  linarith [Real.sin_sq_add_cos_sq t]

theorem Ry_zero : Ry 0 = 1 := by
  rw [Ry, Matrix.one_fin_three]
  norm_num

theorem Rx_zero : Rx 0 = 1 := by
  rw [Rx, Matrix.one_fin_three]
  norm_num

theorem Rz_zero : Rz 0 = 1 := by
  rw [Rz, Matrix.one_fin_three]
  norm_num

theorem radians_zero : radians 0 = 0 := by
  simp [radians]

theorem radians_add_360 (d : ℝ) : radians (d + 360) = radians d + 2 * Real.pi := by
  unfold radians
  ring

theorem Ry_add_360 (d : ℝ) : Ry (radians (d + 360)) = Ry (radians d) := by
  rw [radians_add_360, Ry, Ry, Real.cos_add_two_pi, Real.sin_add_two_pi]

theorem Rx_add_360 (d : ℝ) : Rx (radians (d + 360)) = Rx (radians d) := by
  rw [radians_add_360, Rx, Rx, Real.cos_add_two_pi, Real.sin_add_two_pi]

theorem Rz_add_360 (d : ℝ) : Rz (radians (d + 360)) = Rz (radians d) := by
  rw [radians_add_360, Rz, Rz, Real.cos_add_two_pi, Real.sin_add_two_pi]

theorem orth_mul3 {A B C : Matrix (Fin 3) (Fin 3) ℝ} (hA : Aᵀ * A = 1)
    (hB : Bᵀ * B = 1) (hC : Cᵀ * C = 1) : (A * B * C)ᵀ * (A * B * C) = 1 := by
  rw [Matrix.transpose_mul, Matrix.transpose_mul]
  simp only [Matrix.mul_assoc]
  rw [← Matrix.mul_assoc Aᵀ A (B * C), hA, Matrix.one_mul,
    ← Matrix.mul_assoc Bᵀ B C, hB, Matrix.one_mul, hC]

theorem orth_mul2 {B C : Matrix (Fin 3) (Fin 3) ℝ} (hB : Bᵀ * B = 1)
    (hC : Cᵀ * C = 1) : (B * C)ᵀ * (B * C) = 1 := by
  rw [Matrix.transpose_mul]
  simp only [Matrix.mul_assoc]
  rw [← Matrix.mul_assoc Bᵀ B C, hB, Matrix.one_mul, hC]

theorem rowApply_eq_mulVec (R : Matrix (Fin 3) (Fin 3) ℝ) (v : Fin 3 → ℝ) :
    rowApply R v = R *ᵥ v := by
  unfold rowApply
  rw [← Matrix.mulVec_transpose, Matrix.transpose_transpose]

theorem rowApply_norm (R : Matrix (Fin 3) (Fin 3) ℝ) (h : Rᵀ * R = 1)
    (w : Fin 3 → ℝ) : ∑ i, rowApply R w i ^ 2 = ∑ i, w i ^ 2 := by
  have e : ∀ x : Fin 3 → ℝ, (∑ i, x i ^ 2) = x ⬝ᵥ x := by
    intro x
    simp [Matrix.dotProduct, pow_two]
  have key : (R *ᵥ w) ⬝ᵥ (R *ᵥ w) = w ⬝ᵥ w := by
    rw [Matrix.dotProduct_mulVec, ← Matrix.mulVec_transpose R (R *ᵥ w),
      Matrix.mulVec_mulVec, h, Matrix.one_mulVec]
  rw [rowApply_eq_mulVec, e, e, key]

theorem rowApply_sub (R : Matrix (Fin 3) (Fin 3) ℝ) (u v : Fin 3 → ℝ) :
    rowApply R u - rowApply R v = rowApply R (u - v) := by
  unfold rowApply
  rw [Matrix.sub_vecMul]

theorem liftZ_sub (a b : Fin 3 → ℝ) (i : Fin 3) :
    liftZ a i - liftZ b i = a i - b i := by
  fin_cases i <;> simp [liftZ]

theorem rowApply_one (v : Fin 3 → ℝ) : rowApply 1 v = v := by
  unfold rowApply
  rw [Matrix.transpose_one, Matrix.vecMul_one]

end MPU6050

namespace RollPitchYaw

open MPU6050 Matrix

theorem Rmat_orth (p r y : ℝ) : (Rmat p r y)ᵀ * Rmat p r y = 1 :=
  orth_mul3 (Rz_orth (radians y)) (Rx_orth (radians r)) (Ry_orth (radians p))

theorem Rmat_det (p r y : ℝ) : (Rmat p r y).det = 1 := by
  unfold Rmat
  rw [Matrix.det_mul, Matrix.det_mul, Rz_det, Rx_det, Ry_det]
  norm_num

theorem Rmat_zero : Rmat 0 0 0 = 1 := by
  unfold Rmat
  rw [radians_zero, Rz_zero, Rx_zero, Ry_zero, Matrix.one_mul, Matrix.one_mul]

theorem Rmat_add_360 (p r y : ℝ) :
    Rmat (p + 360) (r + 360) (y + 360) = Rmat p r y := by
  unfold Rmat
  rw [Ry_add_360, Rx_add_360, Rz_add_360]

end RollPitchYaw

namespace RollPitch

open MPU6050 Matrix

theorem Rmat_orth_two_axis (p r : ℝ) : (Rmat p r)ᵀ * Rmat p r = 1 :=
  orth_mul2 (Rx_orth (radians r)) (Ry_orth (radians p))

theorem Rmat_det_two_axis (p r : ℝ) : (Rmat p r).det = 1 := by
  unfold Rmat
  rw [Matrix.det_mul, Rx_det, Ry_det]
  norm_num

end RollPitch

namespace RollPitchYaw

open MPU6050 Matrix

/-- C4: `create_table_vertices` builds the elementary rotations `Ry(pitch)`,
`Rx(roll)`, `Rz(yaw)` from the angles converted to radians and composes them
in the fixed order `R = Rz · Rx · Ry` (pitch first, then roll, then yaw),
mapping every base-geometry vertex `v` to `v · Rᵀ` plus the fixed lift along
the vertical axis — exactly the composition the specification describes
(`poseComposerSpec`); and the pitch+roll variant equals the three-axis
composition with `Rz` instantiated at yaw = 0, where it is the identity. -/
theorem pose_composition_matches_spec (p r y : ℝ) :
    (create_table_vertices p r y =
      (tabletopBase.map (poseComposerSpec p r y),
        legsBase.map fun leg => leg.map (poseComposerSpec p r y))) ∧
    RollPitch.create_table_vertices p r = create_table_vertices p r 0 := by
  constructor
  · rfl
  · have hR2 : RollPitch.Rmat p r = Rmat p r 0 := by
      show Rx (radians r) * Ry (radians p) = Rz (radians 0) * Rx (radians r) * Ry (radians p)
      rw [radians_zero, Rz_zero, Matrix.one_mul]
    show (tabletopBase.map fun v => liftZ (rowApply (RollPitch.Rmat p r) v),
        legsBase.map fun leg => leg.map fun v => liftZ (rowApply (RollPitch.Rmat p r) v)) =
      (tabletopBase.map fun v => liftZ (rowApply (Rmat p r 0) v),
        legsBase.map fun leg => leg.map fun v => liftZ (rowApply (Rmat p r 0) v))
    rw [hR2]

/-- C7: at the all-zero angle triple the composed rotation is the identity
matrix, so `create_table_vertices 0 0 0` returns exactly the base geometry
with only the fixed lift applied, and `create_table_faces` builds the same
face topology on it as on the lifted rest pose. -/
theorem pose_at_zero_is_rest_pose :
    (create_table_vertices 0 0 0 =
      (tabletopBase.map liftZ, legsBase.map fun leg => leg.map liftZ)) ∧
    Rmat 0 0 0 = 1 ∧
    create_table_faces (create_table_vertices 0 0 0).1 (create_table_vertices 0 0 0).2 =
      create_table_faces (tabletopBase.map liftZ)
        (legsBase.map fun leg => leg.map liftZ) := by
  have hfun : (fun v : Fin 3 → ℝ => liftZ (rowApply 1 v)) = liftZ := by
    funext v
    rw [rowApply_one]
  have hmain : create_table_vertices 0 0 0 =
      (tabletopBase.map liftZ, legsBase.map fun leg => leg.map liftZ) := by
    show (tabletopBase.map fun v => liftZ (rowApply (Rmat 0 0 0) v),
        legsBase.map fun leg => leg.map fun v => liftZ (rowApply (Rmat 0 0 0) v)) =
      (tabletopBase.map liftZ, legsBase.map fun leg => leg.map liftZ)
    rw [Rmat_zero, hfun]
  exact ⟨hmain, Rmat_zero, by rw [hmain]⟩

/-- C9: the pose composer is total and deterministic: every real angle
triple (no clamping — the rotation is 360°-periodic, so values outside
[-180, 180] are accepted and rotated accordingly) yields a well-formed pose
(8 tabletop vertices and 4 legs of 8 vertices each), and equal inputs give
equal outputs. -/
theorem pose_total_and_deterministic (p r y : ℝ) :
    ((create_table_vertices p r y).1.length = 8 ∧
      (create_table_vertices p r y).2.length = 4 ∧
      ∀ leg ∈ (create_table_vertices p r y).2, leg.length = 8) ∧
    (∀ p' r' y', p = p' → r = r' → y = y' →
      create_table_vertices p r y = create_table_vertices p' r' y') ∧
    create_table_vertices (p + 360) (r + 360) (y + 360) =
      create_table_vertices p r y := by
  refine ⟨⟨rfl, rfl, ?_⟩, ?_, ?_⟩
  · intro leg h
    fin_cases h <;> rfl
  · intro p' r' y' h1 h2 h3
    rw [h1, h2, h3]
  · show (tabletopBase.map fun v => liftZ (rowApply (Rmat (p + 360) (r + 360) (y + 360)) v),
        legsBase.map fun leg =>
          leg.map fun v => liftZ (rowApply (Rmat (p + 360) (r + 360) (y + 360)) v)) =
      (tabletopBase.map fun v => liftZ (rowApply (Rmat p r y) v),
        legsBase.map fun leg => leg.map fun v => liftZ (rowApply (Rmat p r y) v))
    rw [Rmat_add_360]

/-- Witness for C9 at the concrete triple (0, 0, 0): the periodicity and
well-formedness conclusions instantiated, with the determinism hypotheses
discharged by `rfl`. -/
theorem pose_total_and_deterministic_witness :
    create_table_vertices (0 + 360) (0 + 360) (0 + 360) =
        create_table_vertices 0 0 0 ∧
      create_table_vertices 0 0 0 = create_table_vertices 0 0 0 ∧
      (create_table_vertices 0 0 0).1.length = 8 :=
  ⟨(pose_total_and_deterministic 0 0 0).2.2,
    (pose_total_and_deterministic 0 0 0).2.1 0 0 0 rfl rfl rfl,
    (pose_total_and_deterministic 0 0 0).1.1⟩

/-- C10: for every angle triple the composed matrix `R = Rz · Rx · Ry` is
orthogonal with determinant 1, so the rendered pose is a rigid motion: the
rotation-plus-lift vertex map preserves all pairwise squared distances; the
pitch+roll composition `Rx · Ry` is likewise orthogonal with determinant
1. -/
theorem rotation_is_rigid_motion (p r y : ℝ) :
    (Rmat p r y)ᵀ * Rmat p r y = 1 ∧ (Rmat p r y).det = 1 ∧
    (∀ u v : Fin 3 → ℝ,
      (∑ i, (liftZ (rowApply (Rmat p r y) u) i - liftZ (rowApply (Rmat p r y) v) i) ^ 2)
        = ∑ i, (u i - v i) ^ 2) ∧
    (RollPitch.Rmat p r)ᵀ * RollPitch.Rmat p r = 1 ∧
    (RollPitch.Rmat p r).det = 1 := by
  refine ⟨Rmat_orth p r y, Rmat_det p r y, ?_, RollPitch.Rmat_orth_two_axis p r,
    RollPitch.Rmat_det_two_axis p r⟩
  intro u v
  have h1 : ∀ i : Fin 3,
      liftZ (rowApply (Rmat p r y) u) i - liftZ (rowApply (Rmat p r y) v) i =
        rowApply (Rmat p r y) (u - v) i := by
    intro i
    rw [liftZ_sub, ← rowApply_sub]
    simp
  calc (∑ i, (liftZ (rowApply (Rmat p r y) u) i -
          liftZ (rowApply (Rmat p r y) v) i) ^ 2)
      = ∑ i, rowApply (Rmat p r y) (u - v) i ^ 2 :=
        Finset.sum_congr rfl fun i _ => by rw [h1 i]
    _ = ∑ i, (u - v) i ^ 2 := rowApply_norm (Rmat p r y) (Rmat_orth p r y) (u - v)
    _ = ∑ i, (u i - v i) ^ 2 := by simp

end RollPitchYaw

namespace MPU6050

/-- C5: for a ring buffer of capacity `N` (a `deque(maxlen=N)` starting
empty), after pushing `N + k` elements the size is `min (N + k) N` and the
contents, oldest first, are exactly the last `N` pushed values in their
original push order; the capacity `N` is a construction parameter that no
operation changes. -/
theorem ring_buffer_window {α : Type} (N k : ℕ) (xs : List α)
    (h : xs.length = N + k) :
    (pushAll N ([] : List α) xs).length = min (N + k) N ∧
      pushAll N ([] : List α) xs = xs.drop k := by
  have hd := pushAll_nil_eq_drop N xs
  rw [h] at hd
  have hk : N + k - N = k := by omega
  rw [hk] at hd
  refine ⟨?_, hd⟩
  rw [hd, List.length_drop, h]
  omega

/-- Witness for C5: capacity 2, three pushes. -/
theorem ring_buffer_window_witness :
    (pushAll 2 ([] : List ℕ) [10, 20, 30]).length = min (2 + 1) 2 ∧
      pushAll 2 ([] : List ℕ) [10, 20, 30] = [10, 20, 30].drop 1 :=
  ring_buffer_window 2 1 [10, 20, 30] rfl

/-- Amended C3: extra fields beyond the expected count are ignored in the
pitch-only and pitch+roll parsers (which read only the leading one or two
fields), but the pitch+roll+yaw parser requires exactly 2 or 3 fields and
returns no sample for any line with four or more fields. -/
theorem extra_fields_policy :
    (∀ (pf : List Char → Option ℚ) (a : List Char) (rest : List (List Char)),
      Pitch.parse_fields pf (a :: rest) = pf a) ∧
    (∀ (pf : List Char → Option ℚ) (a b : List Char) (rest : List (List Char)),
      RollPitch.parse_fields pf (a :: b :: rest) = RollPitch.parse_fields pf [a, b]) ∧
    ∀ (pf : List Char → Option ℚ) (a b c d : List Char) (rest : List (List Char)),
      RollPitchYaw.parse_fields pf (a :: b :: c :: d :: rest) = none :=
  ⟨fun _ _ _ => rfl, fun _ _ _ _ => rfl, fun _ _ _ _ _ _ => rfl⟩

/-- Counterexample for C3: the four-field line `1.0,2.0,3.0,4.0` has three
numeric leading fields, yet the pitch+roll+yaw parser returns no sample
instead of ignoring the extra field. -/
theorem extra_fields_rejected_three_axis :
    RollPitchYaw.parse_line pfDec "1.0,2.0,3.0,4.0".toList = none ∧
      pfDec "1.0".toList = some 1 ∧ pfDec "2.0".toList = some 2 ∧
      pfDec "3.0".toList = some 3 := by
  refine ⟨?_, pfDec_one, pfDec_two, pfDec_three⟩
  have hf : fields "1.0,2.0,3.0,4.0".toList =
      ["1.0".toList, "2.0".toList, "3.0".toList, "4.0".toList] := by decide
  show RollPitchYaw.parse_fields pfDec (fields "1.0,2.0,3.0,4.0".toList) = none
  rw [hf]
  rfl

end MPU6050

namespace RollPitchYaw

open MPU6050

/-- C6: the pitch+roll+yaw parser returns `(pitch, roll, yaw)` when the line
has exactly 3 fields and all of them parse, `(pitch, roll, 0)` when it has
exactly 2 fields and both parse (the backward-compatible fallback), and no
sample for any other field count or any failing required field — stated for
an arbitrary field parser `pf`; `Option.bind` makes a `none` from `pf`
propagate to "no sample". -/
theorem parse_line_field_count_cases (pf : List Char → Option ℚ)
    (line : List Char) :
    (∀ a b c, fields line = [a, b, c] →
      parse_line pf line =
        (pf a).bind fun p => (pf b).bind fun r => (pf c).map fun yv => (p, r, yv)) ∧
    (∀ a b, fields line = [a, b] →
      parse_line pf line = (pf a).bind fun p => (pf b).map fun r => (p, r, 0)) ∧
    ((fields line).length ≠ 3 → (fields line).length ≠ 2 →
      parse_line pf line = none) := by
  refine ⟨?_, ?_, ?_⟩
  · intro a b c h
    show parse_fields pf (fields line) = _
    rw [h]
    rcases hp : pf a with _ | p <;> rcases hq : pf b with _ | q <;>
      rcases hy : pf c with _ | yv <;> simp [parse_fields, hp, hq, hy]
  · intro a b h
    show parse_fields pf (fields line) = _
    rw [h]
    rcases hp : pf a with _ | p <;> rcases hq : pf b with _ | q <;>
      simp [parse_fields, hp, hq]
  · intro h3 h2
    show parse_fields pf (fields line) = none
    rcases hf : fields line with _ | ⟨a, _ | ⟨b, _ | ⟨c, _ | ⟨d, t⟩⟩⟩⟩
    · rfl
    · rfl
    · exact absurd (by simp [hf] : (fields line).length = 2) h2
    · exact absurd (by simp [hf] : (fields line).length = 3) h3
    · rfl

/-- Witness for C6: the concrete fallback line `20.0,7.0` yields
`(20, 7, 0)`, not a parse failure. -/
theorem parse_line_field_count_cases_witness :
    parse_line pfDec "20.0,7.0".toList = some (20, 7, 0) := by
  have h := (parse_line_field_count_cases pfDec "20.0,7.0".toList).2.1
    "20.0".toList "7.0".toList (by decide)
  rw [h, pfDec_twenty, pfDec_seven]
  rfl

theorem xBounds_eq (W : ℕ) (s : State) :
    xBounds W s = (max 0 ((s.x_idx.length : ℤ) - (W : ℤ)),
      max (W : ℤ) (s.x_idx.length : ℤ)) := by
  simp [xBounds]

/-- Counterexample for C1: with WINDOW = 200, after 260 accepted samples the
code computes x-bounds `[0, 200]` (it uses the saturated buffer length
`len(x_idx) = min(260, 200)`, not the total accepted count), not the
`[60, 260]` the claim predicts. -/
theorem xBounds_at_260_counterexample :
    xBounds WINDOW (runGood WINDOW 260) = (0, 200) ∧
      xBounds WINDOW (runGood WINDOW 260) ≠ (60, 260) := by
  have h : (runGood WINDOW 260).x_idx.length = 200 := by
    rw [runGood_x_idx_length]
    decide
  have hb : xBounds WINDOW (runGood WINDOW 260) = (0, 200) := by
    rw [xBounds_eq, h]
    norm_num [WINDOW]
  exact ⟨hb, by rw [hb]; decide⟩

/-- Amended C1: the driver computes the x-bounds from the current buffer
length `len(x_idx) = min(count, WINDOW)` rather than from the total accepted
count, so after every number of accepted samples the bounds equal
`[0, WINDOW]` — in particular `[0, 200]` after 50 samples (as the claim
says) and also `[0, 200]` after 260 samples. -/
theorem xBounds_always_full_window (n : ℕ) :
    xBounds WINDOW (runGood WINDOW n) = (0, (WINDOW : ℤ)) := by
  rw [xBounds_eq, runGood_x_idx_length]
  have hle : ((min n WINDOW : ℕ) : ℤ) ≤ (WINDOW : ℤ) := by
    exact_mod_cast Nat.min_le_right n WINDOW
  simp only [Prod.mk.injEq]
  constructor <;> omega

/-- Counterexample for C2: with WINDOW = 200, the value pushed to the index
buffer is `len(x_idx) + 1` and `x_idx` saturates at length 200, so the
201st and the 202nd accepted samples both push the value 201 — the pushed
sequence is not 1, 2, 3, … unbounded. -/
theorem index_saturates_counterexample :
    nextIdxValue (runGood WINDOW 201) = 201 ∧
      nextIdxValue (runGood WINDOW 200) = 201 := by
  constructor <;> rw [nextIdxValue_runGood] <;> decide

/-- Amended C2: the index value pushed for the (n+1)-th accepted sample is
`min (n+1) (WINDOW+1)`: it auto-increments 1, 2, 3, … up to `WINDOW + 1`
and then stays at `WINDOW + 1` forever, because it is computed as
`len(x_idx) + 1` from a buffer whose length saturates at `WINDOW`. -/
theorem index_value_saturates (W n : ℕ) :
    nextIdxValue (runGood W n) = min (n + 1) (W + 1) :=
  nextIdxValue_runGood W n

end RollPitchYaw

/-- C8: after any sequence of processed lines from startup, all per-channel
buffers (pitch, roll, yaw where tracked, and index) hold the same number of
elements — each accepted sample pushes exactly one entry to every channel
buffer — and a line that fails to parse leaves every buffer untouched, in
both the three-axis and the two-axis driver loops. -/
theorem buffers_stay_lockstep :
    (∀ (W : ℕ) (pf : List Char → Option ℚ) (lines : List (List Char)),
      RollPitchYaw.synced (RollPitchYaw.runLines W pf lines)) ∧
    (∀ (W : ℕ) (pf : List Char → Option ℚ) (s : RollPitchYaw.State)
      (line : List Char), RollPitchYaw.parse_line pf line = none →
        RollPitchYaw.processLine W pf s line = s) ∧
    (∀ (W : ℕ) (pf : List Char → Option ℚ) (lines : List (List Char)),
      RollPitch.synced (RollPitch.runLines W pf lines)) ∧
    ∀ (W : ℕ) (pf : List Char → Option ℚ) (s : RollPitch.State)
      (line : List Char), RollPitch.parse_line pf line = none →
        RollPitch.processLine W pf s line = s := by
  refine ⟨fun W pf lines => RollPitchYaw.runLines_synced W pf lines, ?_,
    fun W pf lines => RollPitch.runLines_synced_two_axis W pf lines, ?_⟩
  · intro W pf s line h
    simp [RollPitchYaw.processLine, h]
  · intro W pf s line h
    simp [RollPitch.processLine, h]

/-- Witness for C8: a failing line leaves the startup state unchanged, and
the buffers are in lock-step after one good and one bad line. -/
theorem buffers_stay_lockstep_witness :
    RollPitchYaw.processLine MPU6050.WINDOW MPU6050.pfDec RollPitchYaw.init
        "bad".toList = RollPitchYaw.init ∧
      RollPitchYaw.synced (RollPitchYaw.runLines MPU6050.WINDOW MPU6050.pfDec
        [RollPitchYaw.goodLine, "bad".toList]) :=
  ⟨buffers_stay_lockstep.2.1 MPU6050.WINDOW MPU6050.pfDec RollPitchYaw.init
      "bad".toList (by decide),
    buffers_stay_lockstep.1 MPU6050.WINDOW MPU6050.pfDec
      [RollPitchYaw.goodLine, "bad".toList]⟩
